import Mathlib

/-!
Shallow embedding of the udemy-course-enroller pipeline: the `similarity`
package (similarity scoring and deduplication), the quality scorer, the
coupon-expiration parser, the coupon/claim link resolver and the per-page
course cap of the `scraper` and `security` packages.  Go `float64` values
are modelled as `ℚ`, Go `int` as `ℤ`, Go `time.Time` values symbolically.
Network fetches are modelled by passing the fetched page's link lists as
explicit arguments.
-/

/-! ## Character and string utilities shared by several components -/

/-- Word character for the Go regexp ASCII word boundary assertion:
`[0-9A-Za-z_]`. -/
def isWordChar (c : Char) : Bool :=
  c.isAlphanum || c = '_'

/-- Whitespace class of the Go regexp escape for spaces: tab, newline,
form feed, carriage return and space. -/
def isSpaceGo (c : Char) : Bool :=
  c = ' ' || c = '\t' || c = '\n' || c = '\x0c' || c = '\r'

/-- Does `pat` occur at the very start of `s`? -/
def leadsWith : List Char → List Char → Bool
  | [], _ => true
  | _ :: _, [] => false
  | p :: ps, c :: cs => p = c && leadsWith ps cs

/-- Does `pat` occur at the very end of `s`? -/
def trailsWith (pat s : List Char) : Bool :=
  leadsWith pat.reverse s.reverse

/-- Go `strings.Contains`: does `pat` occur somewhere inside `s`? -/
def containsChars (pat : List Char) : List Char → Bool
  | [] => pat.isEmpty
  | c :: rest => leadsWith pat (c :: rest) || containsChars pat rest

/-- Go `strings.Contains` on `String`. -/
def containsStr (s pat : String) : Bool :=
  containsChars pat.data s.data

/-- Go `strings.ToLower` (ASCII part, which is all the claims exercise). -/
def toLowerStr (s : String) : String :=
  ⟨s.data.map Char.toLower⟩

/-- Go `strings.ToUpper` (ASCII part). -/
def toUpperStr (s : String) : String :=
  ⟨s.data.map Char.toUpper⟩

/-- Splitter of `strings.Fields`: accumulate the current word (reversed)
and cut at whitespace. -/
def fieldsAux : List Char → List Char → List (List Char)
  | cur, [] => if cur.isEmpty then [] else [cur.reverse]
  | cur, c :: rest =>
    if isSpaceGo c then
      if cur.isEmpty then fieldsAux [] rest
      else cur.reverse :: fieldsAux [] rest
    else fieldsAux (c :: cur) rest

/-- Go `strings.Fields`: split at whitespace runs, dropping empties. -/
def fields (s : String) : List String :=
  (fieldsAux [] s.data).map fun l => ⟨l⟩

/-- Trim leading and trailing whitespace, as Go `strings.TrimSpace`. -/
def trimSpaces (s : List Char) : List Char :=
  ((s.dropWhile isSpaceGo).reverse.dropWhile isSpaceGo).reverse

/-! ## database.Course -/

namespace database

/-- The `database.Course` record.  `float64` fields are `ℚ`, `int` fields
are `ℤ`, and the two `time.Time` fields are instants on an abstract
integer time line (only their order is ever used). -/
structure Course where
  ID : ℤ
  URL : String
  Title : String
  Description : String
  Category : String
  Rating : ℚ
  Price : String
  Discount : String
  ExpiresAt : ℤ
  PostedAt : ℤ
  QualityScore : ℚ
  StudentCount : ℤ
deriving DecidableEq

end database

/-! ## security package -/

namespace security

/-- Max courses to process per scrape (`security.MaxCourseCount`). -/
def MaxCourseCount : ℕ := 100

/-- `security.LimitCourses`: clamp a count at `MaxCourseCount`. -/
def LimitCourses (count : ℕ) : ℕ :=
  if MaxCourseCount < count then MaxCourseCount else count

end security

/-! ## similarity package -/

namespace similarity

open database

/-- The similarity engine holds only its threshold. -/
structure SimilarityEngine where
  similarityThreshold : ℚ
deriving DecidableEq

/-- `similarity.New`: out-of-range thresholds fall back to 0.85. -/
def New (threshold : ℚ) : SimilarityEngine :=
  if threshold ≤ 0 ∨ 1 < threshold then ⟨85/100⟩ else ⟨threshold⟩

/-- Filler words stripped by `normalizeText` (the `commonPrefixes` list). -/
def commonPrefixes : List String :=
  ["complete", "comprehensive", "ultimate", "full", "total", "entire",
   "master", "mastering", "learn", "learning", "course", "tutorial",
   "guide", "introduction", "intro", "advanced", "beginner", "basic",
   "professional", "pro", "expert", "bootcamp", "training"]

/-- Is the optional neighbouring character compatible with a word
boundary (absent, or not a word character)? -/
def bdryOk : Option Char → Bool
  | none => true
  | some c => !isWordChar c

/-- Remove every occurrence of the word `w` that sits between word
boundaries, scanning left to right over the original text exactly as the
Go regexp replacement does.  `fuel` starts at the text length; it only
bounds the recursion and is never exhausted on the entry call. -/
def removeWordAux (w : List Char) : ℕ → Option Char → List Char → List Char
  | _, _, [] => []
  | 0, _, s => s
  | fuel + 1, prev, c :: rest =>
    let s := c :: rest
    if !w.isEmpty && leadsWith w s && bdryOk prev && bdryOk (s.drop w.length).head? then
      removeWordAux w fuel w.getLast? (s.drop w.length)
    else
      c :: removeWordAux w fuel (some c) rest

/-- Replacement of standalone word occurrences with the empty string. -/
def removeWord (w s : List Char) : List Char :=
  removeWordAux w s.length none s

/-- One round of the `commonPrefixes` loop for a single word: trim it as
a prefix (with trailing space), as a suffix (with leading space), then
remove standalone occurrences between word boundaries. -/
def stripWord (text : List Char) (w : String) : List Char :=
  let wc := w.data
  let t1 := if leadsWith (wc ++ [' ']) text then text.drop (wc.length + 1) else text
  let t2 := if trailsWith ([' '] ++ wc) t1 then t1.take (t1.length - (wc.length + 1)) else t1
  removeWord wc t2

/-- Removal of four-digit years of the 2000s sitting between word
boundaries, scanning offsets left to right. -/
def removeYears : Option Char → List Char → List Char
  | _, [] => []
  | prev, a :: b :: x :: y :: r2 =>
    if a = '2' && b = '0' && x.isDigit && y.isDigit && bdryOk prev && bdryOk r2.head? then
      removeYears (some y) r2
    else
      a :: removeYears (some a) (b :: x :: y :: r2)
  | _, a :: rest => a :: removeYears (some a) rest

/-- Collapse every whitespace run into one space (`fuelled` by a flag
telling whether the previous kept character was a produced space). -/
def collapseSpacesAux : Bool → List Char → List Char
  | _, [] => []
  | prevSp, c :: rest =>
    if isSpaceGo c then
      if prevSp then collapseSpacesAux true rest
      else ' ' :: collapseSpacesAux true rest
    else c :: collapseSpacesAux false rest

/-- `similarity.normalizeText`: lower-case, strip filler words, strip
2000s years, replace non-alphanumeric characters with spaces, collapse
whitespace and trim. -/
def normalizeText (text : String) : String :=
  let t0 := text.data.map Char.toLower
  let t1 := commonPrefixes.foldl stripWord t0
  let t2 := removeYears none t1
  let t3 := t2.map fun c => if c.isAlphanum || isSpaceGo c then c else ' '
  ⟨trimSpaces (collapseSpacesAux false t3)⟩

/-- `similarity.getWordSet`: the set of words of length at least 3. -/
def getWordSet (text : String) : Finset String :=
  ((fields text).filter fun w => 3 ≤ w.length).toFinset

/-- `similarity.calculateTextSimilarity`: Jaccard similarity on
normalized word sets, with the exact-match and empty-text short
circuits. -/
def calculateTextSimilarity (text1 text2 : String) : ℚ :=
  if text1 = text2 then 1
  else if text1 = "" ∨ text2 = "" then 0
  else
    let norm1 := normalizeText text1
    let norm2 := normalizeText text2
    if norm1 = norm2 then 1
    else
      let words1 := getWordSet norm1
      let words2 := getWordSet norm2
      let intersection := (words1 ∩ words2).card
      let union := words1.card + words2.card - intersection
      if union = 0 then 0 else (intersection : ℚ) / (union : ℚ)

/-- Go `math.Abs` on the rational model of `float64`. -/
def mathAbs (q : ℚ) : ℚ := if q < 0 then -q else q

/-- `similarity.CalculateSimilarity`: weighted title, description and
category similarity plus rating and student-count bonuses, clamped to at
most 1. -/
def CalculateSimilarity (_se : SimilarityEngine) (course1 course2 : Course) : ℚ :=
  let titleSim := calculateTextSimilarity course1.Title course2.Title * (6/10)
  let descSim := calculateTextSimilarity course1.Description course2.Description * (2/10)
  let categorySim : ℚ := if toLowerStr course1.Category = toLowerStr course2.Category then 2/10 else 0
  let total0 := titleSim + descSim + categorySim
  let total1 := if mathAbs (course1.Rating - course2.Rating) ≤ 5/10 then total0 + 5/100 else total0
  let total2 :=
    if 0 < course1.StudentCount ∧ 0 < course2.StudentCount ∧
        ((8/10 : ℚ)) ≤ ((min course1.StudentCount course2.StudentCount : ℤ) : ℚ) /
          ((max course1.StudentCount course2.StudentCount : ℤ) : ℚ) then
      total1 + 5/100
    else total1
  min total2 1

/-- `similarity.IsSimilar`: similarity at least the threshold. -/
def IsSimilar (se : SimilarityEngine) (course1 course2 : Course) : Bool :=
  decide (se.similarityThreshold ≤ CalculateSimilarity se course1 course2)

/-- `similarity.FindBestCourse`: quality score, then rating, then
student count, then recency. -/
def FindBestCourse (course1 course2 : Course) : Course :=
  if course1.QualityScore ≠ course2.QualityScore then
    if course2.QualityScore < course1.QualityScore then course1 else course2
  else if course1.Rating ≠ course2.Rating then
    if course2.Rating < course1.Rating then course1 else course2
  else if course1.StudentCount ≠ course2.StudentCount then
    if course2.StudentCount < course1.StudentCount then course1 else course2
  else if course2.PostedAt < course1.PostedAt then course1 else course2

/-- Inner scan of `DeduplicateCourses` for one outer index: fold the
remaining unprocessed courses, merging those similar to the running best
(Go updates `bestCourse` to `course2` exactly when the winner's ID equals
`course2.ID`).  Returns the final best, the merged courses and the
courses left unprocessed, both in input order. -/
def scanBest (se : SimilarityEngine) (best : Course) :
    List Course → Course × List Course × List Course
  | [] => (best, [], [])
  | x :: xs =>
    if IsSimilar se best x then
      let best' := if (FindBestCourse best x).ID = x.ID then x else best
      let r := scanBest se best' xs
      (r.1, x :: r.2.1, r.2.2)
    else
      let r := scanBest se best xs
      (r.1, r.2.1, x :: r.2.2)

/-- Fuelled core of `DeduplicateCourses`; the fuel starts at the list
length and bounds the recursion, so the `0, l => l` branch is never
reached from the entry point (the unprocessed rest returned by
`scanBest` is never longer than its input). -/
def dedupGo (se : SimilarityEngine) : ℕ → List Course → List Course
  | _, [] => []
  | 0, l => l
  | fuel + 1, c :: cs =>
    let r := scanBest se c cs
    r.1 :: dedupGo se fuel r.2.2

/-- `similarity.DeduplicateCourses`: greedy single-link deduplication in
input order. -/
def DeduplicateCourses (se : SimilarityEngine) (courses : List Course) : List Course :=
  dedupGo se courses.length courses

/-- The greedy groups formed by the same scan: each outer index together
with the courses merged into it. -/
def groupsGo (se : SimilarityEngine) : ℕ → List Course → List (List Course)
  | _, [] => []
  | 0, _ => []
  | fuel + 1, c :: cs =>
    let r := scanBest se c cs
    (c :: r.2.1) :: groupsGo se fuel r.2.2

/-- The greedy single-link groups underlying `DeduplicateCourses`. -/
def dedupGroups (se : SimilarityEngine) (courses : List Course) : List (List Course) :=
  groupsGo se courses.length courses

end similarity

/-! ## scraper package: quality scorer -/

namespace scraper

open database

/-- Positive title keywords of `calculateQualityScore`. -/
def positiveWords : List String :=
  ["complete", "comprehensive", "masterclass", "bootcamp", "advanced",
   "professional", "certification", "diploma", "course", "guide",
   "tutorial", "training", "learn", "master", "expert"]

/-- Negative title keywords of `calculateQualityScore`. -/
def negativeWords : List String :=
  ["quick", "crash", "basics only", "intro", "beginner only",
   "summary", "overview", "brief"]

/-- Student-count step bonus of `calculateQualityScore`. -/
def studentCountBonus (studentCount : ℤ) : ℚ :=
  if 1000 ≤ studentCount then 30
  else if 500 ≤ studentCount then 25
  else if 100 ≤ studentCount then 20
  else if 50 ≤ studentCount then 15
  else if 10 ≤ studentCount then 10
  else if 0 < studentCount then 5
  else 0

/-- Year/recency bonus: first literal of the current year down through
the prior two years found in the title wins, then the loop breaks. -/
def yearBonus (currentYear : ℕ) (title : String) : ℚ :=
  if containsStr title (toString currentYear) then 3
  else if containsStr title (toString (currentYear - 1)) then 2
  else if containsStr title (toString (currentYear - 2)) then 1
  else 0

/-- Unclamped sum of the quality-score terms, mirroring the sequential
`score` updates of `calculateQualityScore` (the Go code reads the clock
for the recency term; the current year is passed explicitly here). -/
def rawQualityScore (currentYear : ℕ) (rating : ℚ) (studentCount : ℤ)
    (title description : String) : ℚ :=
  let score0 : ℚ := if 0 < rating then rating * 8 else 0
  let score1 := score0 + studentCountBonus studentCount
  let titleLower := toLowerStr title
  let score2 := positiveWords.foldl
    (fun sc word => if containsStr titleLower word then sc + 2 else sc) score1
  let score3 := negativeWords.foldl
    (fun sc word => if containsStr titleLower word then sc - 3 else sc) score2
  let score4 := score3 + (if 100 < description.length then 5 else 0)
  let score5 := score4 + (if 200 < description.length then 3 else 0)
  score5 + yearBonus currentYear title

/-- Final clamp of `calculateQualityScore`: cap at 100, then floor at 0. -/
def clampScore (score : ℚ) : ℚ :=
  let s1 := if 100 < score then 100 else score
  if s1 < 0 then 0 else s1

/-- `scraper.calculateQualityScore`. -/
def calculateQualityScore (currentYear : ℕ) (rating : ℚ) (studentCount : ℤ)
    (title description : String) : ℚ :=
  clampScore (rawQualityScore currentYear rating studentCount title description)

end scraper

/-! ## scraper package: coupon expiration parsing -/

namespace scraper

/-- A calendar timestamp as built by Go `time.Date(..., time.UTC)`;
`none` at use sites stands for the zero `time.Time`. -/
structure DateTime where
  year : ℕ
  month : ℕ
  day : ℕ
  hour : ℕ
  minute : ℕ
  second : ℕ
deriving DecidableEq

/-- Value of a decimal digit character. -/
def digitVal (c : Char) : ℕ := c.toNat - 48

/-- Four decimal digits at the head of the text, as a number. -/
def year4 : List Char → Option ℕ
  | a :: b :: x :: y :: _ =>
    if a.isDigit && b.isDigit && x.isDigit && y.isDigit then
      some (1000 * digitVal a + 100 * digitVal b + 10 * digitVal x + digitVal y)
    else none
  | _ => none

/-- Anchored match of two day digits, the month name, then four year
digits. -/
def try2 (name s : List Char) : Option (Option ℕ × ℕ) :=
  match s with
  | d1 :: d2 :: rest =>
    if d1.isDigit && d2.isDigit && leadsWith name rest then
      (year4 (rest.drop name.length)).map fun y => (some (10 * digitVal d1 + digitVal d2), y)
    else none
  | _ => none

/-- Anchored match of one day digit, the month name, then four year
digits. -/
def try1 (name s : List Char) : Option (Option ℕ × ℕ) :=
  match s with
  | d1 :: rest =>
    if d1.isDigit && leadsWith name rest then
      (year4 (rest.drop name.length)).map fun y => (some (digitVal d1), y)
    else none
  | _ => none

/-- Anchored match of the month name then four year digits, no day. -/
def try0 (name s : List Char) : Option (Option ℕ × ℕ) :=
  if leadsWith name s then (year4 (s.drop name.length)).map fun y => ((none : Option ℕ), y)
  else none

/-- Leftmost-first match of the month-name pattern (an optional greedy
one-or-two-digit day, the name, then four year digits), exactly the
search order of the Go regexp engine: offsets left to right, and at each
offset the longer day first. -/
def matchMonthName (name : List Char) : List Char → Option (Option ℕ × ℕ)
  | [] => try0 name []
  | c :: rest => try2 name (c :: rest) <|> try1 name (c :: rest) <|>
      try0 name (c :: rest) <|> matchMonthName name rest

/-- The month-name table of `parseCouponExpiration`, in source order.
(Go iterates the map in unspecified order; on every input settled here at
most one entry can produce a returned date, so the order is immaterial.) -/
def monthsTable : List (String × ℕ) :=
  [("JAN", 1), ("JANUARY", 1), ("FEB", 2), ("FEBRUARY", 2),
   ("MAR", 3), ("MARCH", 3), ("APR", 4), ("APRIL", 4), ("MAY", 5),
   ("JUN", 6), ("JUNE", 6), ("JUL", 7), ("JULY", 7),
   ("AUG", 8), ("AUGUST", 8), ("SEP", 9), ("SEPTEMBER", 9),
   ("OCT", 10), ("OCTOBER", 10), ("NOV", 11), ("NOVEMBER", 11),
   ("DEC", 12), ("DECEMBER", 12)]

/-- The month-name loop of `parseCouponExpiration`: a match whose year
and day pass the guards returns a date, otherwise the loop goes on. -/
def parseMonths (currentYear : ℕ) (upper : List Char) :
    List (String × ℕ) → Option DateTime
  | [] => none
  | (name, m) :: rest =>
    match matchMonthName name.data upper with
    | some (od, year) =>
      let day := od.getD 1
      if 0 < year ∧ currentYear ≤ year ∧ 0 < day ∧ day ≤ 31 then
        some ⟨year, m, day, 23, 59, 59⟩
      else parseMonths currentYear upper rest
    | none => parseMonths currentYear upper rest

/-- Anchored match of a bare 2000s year at the head: the digit 2, the
digit 0, then two more digits. -/
def year20At : List Char → Option ℕ
  | '2' :: '0' :: x :: y :: _ =>
    if x.isDigit && y.isDigit then some (2000 + 10 * digitVal x + digitVal y)
    else none
  | _ => none

/-- Leftmost match of a bare 2000s year, scanning offsets left to
right. -/
def find20dd : List Char → Option ℕ
  | [] => none
  | c :: rest =>
    match year20At (c :: rest) with
    | some v => some v
    | none => find20dd rest

/-- `scraper.parseCouponExpiration`: month-name patterns over the
upper-cased code first, then a bare 2000s year (taken to Dec 31), both
subject to the year being at least the current one; `none` is the zero
time.  The clock read `time.Now().Year()` is the explicit
`currentYear`. -/
def parseCouponExpiration (currentYear : ℕ) (couponCode : String) : Option DateTime :=
  match parseMonths currentYear (toUpperStr couponCode).data monthsTable with
  | some d => some d
  | none =>
    match find20dd couponCode.data with
    | some year =>
      if currentYear ≤ year then some ⟨year, 12, 31, 23, 59, 59⟩ else none
    | none => none

end scraper

/-! ## URL and query-string helpers (net/url as used by the scraper) -/

namespace scraper

/-- Hexadecimal digit value, upper or lower case. -/
def hexVal : Char → Option ℕ
  | c =>
    if c.isDigit then some (c.toNat - 48)
    else if 'A' ≤ c ∧ c ≤ 'F' then some (c.toNat - 55)
    else if 'a' ≤ c ∧ c ≤ 'f' then some (c.toNat - 87)
    else none

/-- Go `url.QueryUnescape` (byte level, which is exact for the ASCII
inputs exercised here): plus to space, percent-hex decoded, malformed
escapes failing. -/
def queryUnescape : List Char → Option (List Char)
  | [] => some []
  | '%' :: a :: b :: rest => do
    let ha ← hexVal a
    let hb ← hexVal b
    let r ← queryUnescape rest
    pure (Char.ofNat (16 * ha + hb) :: r)
  | ['%'] => none
  | ['%', _] => none
  | '+' :: rest => (queryUnescape rest).map (' ' :: ·)
  | c :: rest => (queryUnescape rest).map (c :: ·)

/-- Split a query pair at its first equals sign. -/
def splitEq : List Char → List Char × List Char
  | [] => ([], [])
  | '=' :: rest => ([], rest)
  | c :: rest =>
    let r := splitEq rest
    (c :: r.1, r.2)

/-- Split a character list on a separator. -/
def splitOnChar (sep : Char) : List Char → List (List Char)
  | [] => [[]]
  | c :: rest =>
    let r := splitOnChar sep rest
    if c = sep then [] :: r
    else
      match r with
      | [] => [[c]]
      | g :: gs => (c :: g) :: gs

/-- Everything after the first question mark. -/
def afterQn : List Char → Option (List Char)
  | [] => none
  | '?' :: rest => some rest
  | _ :: rest => afterQn rest

/-- Everything before the first hash. -/
def upToHash : List Char → List Char
  | [] => []
  | '#' :: _ => []
  | c :: rest => c :: upToHash rest

/-- First value for a key among decoded query pairs, skipping pairs that
fail to decode, as Go `url.ParseQuery` + `Values.Get`. -/
def queryLookup (key : List Char) : List (List Char) → Option (List Char)
  | [] => none
  | p :: rest =>
    if p.isEmpty then queryLookup key rest
    else
      let kv := splitEq p
      match queryUnescape kv.1, queryUnescape kv.2 with
      | some k, some v => if k = key then some v else queryLookup key rest
      | _, _ => queryLookup key rest

/-- Go `url.Parse(u).Query().Get(key)`: empty string when absent. -/
def queryGet (url key : String) : String :=
  match afterQn (upToHash url.data) with
  | none => ""
  | some rq =>
    match queryLookup key.data (splitOnChar '&' rq) with
    | some v => ⟨v⟩
    | none => ""

/-- Unreserved characters that Go `url.QueryEscape` leaves alone. -/
def isUnreservedGo (c : Char) : Bool :=
  c.isAlphanum || c = '-' || c = '_' || c = '.' || c = '~'

/-- Upper-case hexadecimal digit of a value below 16. -/
def hexDigitUp (n : ℕ) : Char :=
  if n < 10 then Char.ofNat (48 + n) else Char.ofNat (55 + n)

/-- Go `url.QueryEscape` (byte level on ASCII). -/
def queryEscape : List Char → List Char
  | [] => []
  | c :: rest =>
    if isUnreservedGo c then c :: queryEscape rest
    else if c = ' ' then '+' :: queryEscape rest
    else '%' :: hexDigitUp (c.toNat / 16 % 16) :: hexDigitUp (c.toNat % 16) :: queryEscape rest

/-- Split an absolute URL at its first scheme marker. -/
def splitAtMarker : List Char → Option (List Char × List Char)
  | [] => none
  | ':' :: '/' :: '/' :: rest => some ([], rest)
  | c :: rest => (splitAtMarker rest).map fun pr => (c :: pr.1, pr.2)

/-- Scheme plus host of an absolute URL, as the Go code rebuilds them
when rooting a relative claim link. -/
def schemeHostOf (u : String) : String :=
  match splitAtMarker u.data with
  | some (sc, rest) =>
    ⟨sc ++ (("://").data) ++ rest.takeWhile fun c => !(c = '/' || c = '?' || c = '#')⟩
  | none => ""

end scraper

/-! ## scraper package: expiration extraction, link resolution, caps -/

namespace scraper

open database

/-- Result space of `extractExpirationDate`: either a parsed coupon date
or a deadline a fixed number of days after the current instant. -/
inductive Expiration where
  | fromDate (d : DateTime)
  | nowPlusDays (n : ℕ)
deriving DecidableEq

/-- The coupon-code branch of `extractExpirationDate`: find a nested
`murl` destination in the query string, decode it once more, read its
`couponCode` parameter and parse that for an expiry; `none` whenever any
step fails or the parse yields the zero time. -/
def couponDateOf (currentYear : ℕ) (courseURL : String) : Option DateTime :=
  if containsStr courseURL ("couponCode=") then
    let murl := queryGet courseURL ("murl")
    if murl ≠ "" then
      match queryUnescape murl.data with
      | some decoded =>
        let couponCode := queryGet ⟨decoded⟩ ("couponCode")
        if couponCode ≠ "" then parseCouponExpiration currentYear couponCode
        else none
      | none => none
    else none
  else none

/-- `scraper.extractExpirationDate`: a decodable coupon expiry wins;
otherwise two days from now for titles carrying an urgency token and the
seven-day default else. -/
def extractExpirationDate (currentYear : ℕ) (courseURL title : String) : Expiration :=
  match couponDateOf currentYear courseURL with
  | some d => .fromDate d
  | none =>
    if containsStr (toLowerStr title) ("limited") ||
        containsStr (toLowerStr title) ("special") ||
        containsStr (toLowerStr title) ("exclusive") then
      .nowPlusDays 2
    else .nowPlusDays 7

/-- `scraper.cleanUdemyURL`: root relative URLs at the Udemy host, pass
tracking URLs through untouched, reject non-Udemy hosts, and keep only
the couponCode and referralCode query parameters (fragments and
userinfo, which no caller produces, are not modelled). -/
def cleanUdemyURL (rawURL : String) : Except String String :=
  let raw := if leadsWith ['/'] rawURL.data then "https://www.udemy.com" ++ rawURL else rawURL
  match splitAtMarker raw.data with
  | none => Except.error ("failed to parse URL: " ++ raw)
  | some (schemePart, rest) =>
    let host := rest.takeWhile fun c => !(c = '/' || c = '?' || c = '#')
    let tail := rest.drop host.length
    if containsChars (("linksynergy.com").data) host || containsChars (("click.").data) host ||
        containsStr raw ("murl=") then
      Except.ok raw
    else if !containsChars (("udemy.com").data) host && !containsStr raw ("udemy.com") then
      Except.error ("not a Udemy URL: " ++ raw)
    else
      let path := (upToHash tail).takeWhile (· ≠ '?')
      let coupon := queryGet raw ("couponCode")
      let ref := queryGet raw ("referralCode")
      let q1 : List Char := if coupon ≠ "" then ("couponCode=").data ++ queryEscape coupon.data else []
      let q2 : List Char := if ref ≠ "" then ("referralCode=").data ++ queryEscape ref.data else []
      let qs := if q1 ≠ [] ∧ q2 ≠ [] then q1 ++ ['&'] ++ q2 else q1 ++ q2
      Except.ok ⟨schemePart ++ (("://").data) ++ host ++ path ++
        (if qs.isEmpty then [] else '?' :: qs)⟩

/-- `scraper.followClaimLink` with the fetched claim page modelled by
its link list in document order: the last link that is both a Udemy and
a course link wins, else the first Udemy link that is not a user
profile. -/
def followClaimLink (_claimURL : String) (pageLinks : List String) : Except String String :=
  let course := (pageLinks.filter fun h => containsStr h ("udemy.com") && containsStr h ("/course/")).getLast?
  let udemyURL :=
    match course with
    | some u => some u
    | none => pageLinks.find? fun h => containsStr h ("udemy.com") && !containsStr h ("/user/")
  match udemyURL with
  | some u => Except.ok u
  | none => Except.error ("no Udemy course link found on claim page")

/-- `scraper.followCouponLink` with the fetched coupon page modelled by
its link list and the claim page (fetched only when needed) by another:
first Udemy course link, else first non-user Udemy link, else the first
claim link followed through `followClaimLink`, and the winner cleaned. -/
def followCouponLink (couponURL : String) (couponPageLinks claimPageLinks : List String) :
    Except String String :=
  let allUdemyLinks := couponPageLinks.filter fun h => containsStr h ("udemy.com")
  let courseLink := allUdemyLinks.find? fun h => containsStr h ("/course/")
  let udemyURL :=
    match courseLink with
    | some u => some u
    | none => allUdemyLinks.find? fun h => !containsStr h ("/user/")
  match udemyURL with
  | some u => cleanUdemyURL u
  | none =>
    match (couponPageLinks.filter fun h => containsStr h ("/claim/")).head? with
    | none => Except.error ("no Udemy link found on coupon page")
    | some claimURL =>
      let fullClaimURL :=
        if leadsWith ['/'] claimURL.data then schemeHostOf couponURL ++ claimURL else claimURL
      match followClaimLink fullClaimURL claimPageLinks with
      | Except.error e => Except.error ("failed to follow claim link: " ++ e)
      | Except.ok u => cleanUdemyURL u

/-- Anchor loop of `scraper.extractCourses`, keeping only its counting
skeleton: the per-anchor pipeline (link resolution, field extraction and
scoring, all of which perform I/O) is the oracle `resolve`, with `none`
for an anchor that is skipped.  Once `count` reaches the limit every
remaining anchor is skipped, exactly as the early `return` inside the
`Each` callback does. -/
def extractCoursesGo {α : Type} (limit : ℕ) (resolve : α → Option Course) :
    List α → ℕ → List Course
  | [], _ => []
  | a :: rest, count =>
    if limit ≤ count then extractCoursesGo limit resolve rest count
    else
      match resolve a with
      | none => extractCoursesGo limit resolve rest count
      | some c => c :: extractCoursesGo limit resolve rest (count + 1)

/-- The course list assembled by `extractCourses` from one page's
matching anchors, capped by `security.LimitCourses 1000`. -/
def extractCourses {α : Type} (resolve : α → Option Course) (anchors : List α) : List Course :=
  extractCoursesGo (security.LimitCourses 1000) resolve anchors 0

end scraper

/-! ## Auxiliary specification-side definitions -/

/-- Number of non-overlapping occurrences of `w` inside `s` (the
per-occurrence counting the spec's keyword-term sentence describes, as
Go `strings.Count` would produce it).  `fuel` starts at the text length
and only bounds the recursion. -/
def countOccAux (w : List Char) : ℕ → List Char → ℕ
  | _, [] => 0
  | 0, _ => 0
  | fuel + 1, c :: rest =>
    if !w.isEmpty && leadsWith w (c :: rest) then
      1 + countOccAux w fuel ((c :: rest).drop w.length)
    else countOccAux w fuel rest

/-- Non-overlapping occurrence count on strings. -/
def countOccurrences (s w : String) : ℕ :=
  countOccAux w.data s.data.length s.data

namespace scraper

/-- Does some run of four consecutive decimal digits of value at least
`cy` occur in the text?  This is exactly the shape every year accepted by
`parseCouponExpiration` must take. -/
def runGE (cy : ℕ) : List Char → Bool
  | [] => false
  | c :: rest =>
    (match year4 (c :: rest) with
     | some y => decide (cy ≤ y)
     | none => false) || runGE cy rest

end scraper

/-! # Lemmas -/

/-- A decimal digit is unchanged by `Char.toUpper`. -/
theorem digit_toUpper (c : Char) (h : c.isDigit = true) : c.toUpper = c := by
  simp only [Char.isDigit, Bool.and_eq_true, decide_eq_true_eq] at h
  have h2 : c.toNat ≤ 57 := by
    have := h.2
    rw [UInt32.le_def, BitVec.le_def] at this
    simpa [Char.toNat, UInt32.toNat] using this
  unfold Char.toUpper
  rw [if_neg]
  rintro ⟨h1, _⟩
  omega

/-- The explicit absolute value agrees with Mathlib's. -/
theorem mathAbs_eq_abs (q : ℚ) : similarity.mathAbs q = |q| := by
  unfold similarity.mathAbs
  split_ifs with h
  · exact (abs_of_neg h).symm
  · exact (abs_of_nonneg (le_of_not_lt h)).symm

namespace similarity

/-- Text similarity never exceeds 1. -/
theorem textSim_le_one (text1 text2 : String) : calculateTextSimilarity text1 text2 ≤ 1 := by
  simp only [calculateTextSimilarity]
  split_ifs with h1 h2 h3 h4
  · exact le_refl 1
  · norm_num
  · exact le_refl 1
  · norm_num
  · set w1 := getWordSet (normalizeText text1) with hw1
    set w2 := getWordSet (normalizeText text2) with hw2
    have hint : (w1 ∩ w2).card ≤ w1.card := Finset.card_le_card Finset.inter_subset_left
    have hint2 : (w1 ∩ w2).card ≤ w2.card := Finset.card_le_card Finset.inter_subset_right
    have hle : (w1 ∩ w2).card ≤ w1.card + w2.card - (w1 ∩ w2).card := by omega
    have hpos : 0 < w1.card + w2.card - (w1 ∩ w2).card := Nat.pos_of_ne_zero h4
    rw [div_le_one (by exact_mod_cast hpos)]
    exact_mod_cast hle

/-- Text similarity of a text with itself is 1. -/
theorem textSim_self (text : String) : calculateTextSimilarity text text = 1 := by
  unfold calculateTextSimilarity
  rw [if_pos rfl]

/-- Similarity of any course with itself clamps to exactly 1. -/
theorem calculateSimilarity_self (se : SimilarityEngine) (c : database.Course) :
    CalculateSimilarity se c c = 1 := by
  simp only [CalculateSimilarity, textSim_self]
  norm_num
  split_ifs <;> norm_num

/-- Text similarity is symmetric. -/
theorem textSim_comm (text1 text2 : String) :
    calculateTextSimilarity text1 text2 = calculateTextSimilarity text2 text1 := by
  unfold calculateTextSimilarity
  rcases eq_or_ne text1 text2 with h | h
  · subst h; rfl
  · rw [if_neg h, if_neg (Ne.symm h)]
    by_cases he : text1 = "" ∨ text2 = ""
    · rw [if_pos he, if_pos (Or.symm he)]
    · rw [if_neg he, if_neg fun hc => he (Or.symm hc)]
      rcases eq_or_ne (normalizeText text1) (normalizeText text2) with hn | hn
      · rw [if_pos hn, if_pos hn.symm]
      · rw [if_neg hn, if_neg (Ne.symm hn)]
        dsimp only
        rw [Finset.inter_comm, Nat.add_comm]

end similarity

namespace similarity

/-- Course similarity is symmetric. -/
theorem calculateSimilarity_comm (se : SimilarityEngine) (a b : database.Course) :
    CalculateSimilarity se a b = CalculateSimilarity se b a := by
  unfold CalculateSimilarity
  dsimp only
  rw [textSim_comm a.Title b.Title, textSim_comm a.Description b.Description]
  have hcat : (toLowerStr a.Category = toLowerStr b.Category) =
      (toLowerStr b.Category = toLowerStr a.Category) := by
    apply propext; exact eq_comm
  have hr : (mathAbs (a.Rating - b.Rating) ≤ 5/10) = (mathAbs (b.Rating - a.Rating) ≤ 5/10) := by
    rw [mathAbs_eq_abs, mathAbs_eq_abs, abs_sub_comm]
  have hs : (0 < a.StudentCount ∧ 0 < b.StudentCount ∧
      ((8/10 : ℚ)) ≤ ((min a.StudentCount b.StudentCount : ℤ) : ℚ) /
        ((max a.StudentCount b.StudentCount : ℤ) : ℚ)) =
      (0 < b.StudentCount ∧ 0 < a.StudentCount ∧
      ((8/10 : ℚ)) ≤ ((min b.StudentCount a.StudentCount : ℤ) : ℚ) /
        ((max b.StudentCount a.StudentCount : ℤ) : ℚ)) := by
    rw [min_comm, max_comm]
    apply propext
    constructor
    · rintro ⟨x, y, z⟩; exact ⟨y, x, z⟩
    · rintro ⟨x, y, z⟩; exact ⟨y, x, z⟩
  simp only [hcat, hr, hs]

/-- The duplicate test is symmetric. -/
theorem isSimilar_comm (se : SimilarityEngine) (a b : database.Course) :
    IsSimilar se a b = IsSimilar se b a := by
  unfold IsSimilar
  rw [calculateSimilarity_comm]

end similarity

namespace similarity

open database

/-- The unprocessed rest returned by the inner scan never grows. -/
theorem scanBest_rest_length (se : SimilarityEngine) (b : Course) (l : List Course) :
    (scanBest se b l).2.2.length ≤ l.length := by
  induction l generalizing b with
  | nil => simp [scanBest]
  | cons x xs ih =>
    simp only [scanBest]
    split_ifs <;> dsimp only <;> simp only [List.length_cons]
    · exact le_trans (ih x) (Nat.le_succ _)
    · exact le_trans (ih b) (Nat.le_succ _)
    · have := ih b; omega

/-- Merged courses and unprocessed rest together are the scanned input. -/
theorem scanBest_perm (se : SimilarityEngine) (b : Course) (l : List Course) :
    ((scanBest se b l).2.1 ++ (scanBest se b l).2.2).Perm l := by
  induction l generalizing b with
  | nil => simp [scanBest]
  | cons x xs ih =>
    simp only [scanBest]
    split_ifs <;> dsimp only
    · exact List.Perm.cons x (ih x)
    · exact List.Perm.cons x (ih b)
    · exact List.perm_middle.trans (List.Perm.cons x (ih b))

/-- The surviving best of a scan is the seed or one of the merged courses. -/
theorem scanBest_best_mem (se : SimilarityEngine) (b : Course) (l : List Course) :
    (scanBest se b l).1 = b ∨ (scanBest se b l).1 ∈ (scanBest se b l).2.1 := by
  induction l generalizing b with
  | nil => left; rfl
  | cons x xs ih =>
    simp only [scanBest]
    split_ifs with hsim hid <;> dsimp only
    · rcases ih x with h | h
      · right; rw [h]; exact List.mem_cons_self x _
      · right; exact List.mem_cons_of_mem x h
    · rcases ih b with h | h
      · left; exact h
      · right; exact List.mem_cons_of_mem x h
    · exact ih b

end similarity

namespace similarity

open database

/-- Every course emitted by the deduplication core is drawn from its input. -/
theorem dedupGo_subset (se : SimilarityEngine) :
    ∀ (fuel : ℕ) (l : List Course), l.length ≤ fuel →
      ∀ c ∈ dedupGo se fuel l, c ∈ l := by
  intro fuel
  induction fuel with
  | zero =>
    intro l hl c hc
    interval_cases hlen : l.length
    · rw [List.length_eq_zero] at hlen
      subst hlen
      simp [dedupGo] at hc
  | succ fuel ih =>
    intro l hl c hc
    match l with
    | [] => simp [dedupGo] at hc
    | a :: as =>
      simp only [dedupGo] at hc
      rcases List.mem_cons.mp hc with h | h
      · subst h
        rcases scanBest_best_mem se a as with h1 | h1
        · rw [h1]; exact List.mem_cons_self a as
        · have hm : (scanBest se a as).1 ∈ (scanBest se a as).2.1 ++ (scanBest se a as).2.2 :=
            List.mem_append_left _ h1
          exact List.mem_cons_of_mem a ((scanBest_perm se a as).mem_iff.mp hm)
      · have hrl : (scanBest se a as).2.2.length ≤ fuel :=
          le_trans (scanBest_rest_length se a as) (Nat.succ_le_succ_iff.mp hl)
        have := ih (scanBest se a as).2.2 hrl c h
        have hm : c ∈ (scanBest se a as).2.1 ++ (scanBest se a as).2.2 :=
          List.mem_append_right _ this
        exact List.mem_cons_of_mem a ((scanBest_perm se a as).mem_iff.mp hm)

/-- The deduplication core emits exactly one member per greedy group. -/
theorem dedupGo_forall2 (se : SimilarityEngine) :
    ∀ (fuel : ℕ) (l : List Course), l.length ≤ fuel →
      List.Forall₂ (· ∈ ·) (dedupGo se fuel l) (groupsGo se fuel l) := by
  intro fuel
  induction fuel with
  | zero =>
    intro l hl
    have : l = [] := List.length_eq_zero.mp (Nat.le_zero.mp hl)
    subst this
    simp [dedupGo, groupsGo]
  | succ fuel ih =>
    intro l hl
    match l with
    | [] => simp [dedupGo, groupsGo]
    | a :: as =>
      simp only [dedupGo, groupsGo]
      refine List.Forall₂.cons ?_ ?_
      · rcases scanBest_best_mem se a as with h1 | h1
        · rw [h1]; exact List.mem_cons_self a _
        · exact List.mem_cons_of_mem a h1
      · exact ih _ (le_trans (scanBest_rest_length se a as) (Nat.succ_le_succ_iff.mp hl))

/-- The greedy groups partition the input list. -/
theorem groupsGo_flatten_perm (se : SimilarityEngine) :
    ∀ (fuel : ℕ) (l : List Course), l.length ≤ fuel →
      ((groupsGo se fuel l).flatten).Perm l := by
  intro fuel
  induction fuel with
  | zero =>
    intro l hl
    have : l = [] := List.length_eq_zero.mp (Nat.le_zero.mp hl)
    subst this
    simp [groupsGo]
  | succ fuel ih =>
    intro l hl
    match l with
    | [] => simp [groupsGo]
    | a :: as =>
      simp only [groupsGo, List.flatten_cons]
      have hrest := ih (scanBest se a as).2.2
        (le_trans (scanBest_rest_length se a as) (Nat.succ_le_succ_iff.mp hl))
      rw [List.cons_append]
      exact List.Perm.cons a ((List.Perm.append_left _ hrest).trans (scanBest_perm se a as))

end similarity

namespace similarity

open database

/-- Deduplicating a singleton returns it unchanged. -/
theorem dedup_singleton (se : SimilarityEngine) (c : Course) :
    DeduplicateCourses se [c] = [c] := rfl

/-- Closed form of deduplication on a two-element list. -/
theorem dedup_pair (se : SimilarityEngine) (a b : Course) :
    DeduplicateCourses se [a, b] =
      if IsSimilar se a b then [if (FindBestCourse a b).ID = b.ID then b else a]
      else [a, b] := by
  simp only [DeduplicateCourses, List.length_cons, List.length_nil, dedupGo, scanBest]
  split_ifs <;> rfl

/-- The default engine keeps its 0.85 threshold. -/
theorem new_threshold : (New (85/100)).similarityThreshold = 85/100 := by
  norm_num [New]

/-- With different categories, far-apart ratings and no student-count
overlap, similarity cannot exceed 0.8. -/
theorem sim_le_of_far (se : SimilarityEngine) (a b : Course)
    (hcat : toLowerStr a.Category ≠ toLowerStr b.Category)
    (hrat : ¬(mathAbs (a.Rating - b.Rating) ≤ 5/10))
    (hstud : ¬(0 < a.StudentCount ∧ 0 < b.StudentCount ∧
      ((8/10 : ℚ)) ≤ ((min a.StudentCount b.StudentCount : ℤ) : ℚ) /
        ((max a.StudentCount b.StudentCount : ℤ) : ℚ))) :
    CalculateSimilarity se a b ≤ 8/10 := by
  unfold CalculateSimilarity
  dsimp only
  rw [if_neg hcat, if_neg hrat, if_neg hstud]
  have t1 := textSim_le_one a.Title b.Title
  have t2 := textSim_le_one a.Description b.Description
  have m1 : calculateTextSimilarity a.Title b.Title * (6/10) ≤ 6/10 := by nlinarith
  have m2 : calculateTextSimilarity a.Description b.Description * (2/10) ≤ 2/10 := by nlinarith
  have : calculateTextSimilarity a.Title b.Title * (6/10) +
      calculateTextSimilarity a.Description b.Description * (2/10) + 0 ≤ 8/10 := by linarith
  exact le_trans (min_le_left _ _) this

/-- Identical titles, descriptions and categories drive similarity to
the clamp. -/
theorem sim_eq_one_of_equal_fields (se : SimilarityEngine) (a b : Course)
    (hT : a.Title = b.Title) (hD : a.Description = b.Description)
    (hC : a.Category = b.Category) :
    CalculateSimilarity se a b = 1 := by
  unfold CalculateSimilarity
  dsimp only
  rw [hT, hD, hC, textSim_self, textSim_self, if_pos rfl]
  split_ifs <;> norm_num

end similarity

namespace scraper

open database

/-- The anchor loop never emits more than its remaining budget. -/
theorem extractCoursesGo_length {α : Type} (limit : ℕ) (resolve : α → Option Course) :
    ∀ (l : List α) (count : ℕ),
      (extractCoursesGo limit resolve l count).length ≤ limit - count := by
  intro l
  induction l with
  | nil => intro count; simp [extractCoursesGo]
  | cons a rest ih =>
    intro count
    simp only [extractCoursesGo]
    split_ifs with h
    · exact ih count
    · match hr : resolve a with
      | none => exact ih count
      | some c =>
        simp only [List.length_cons]
        have := ih (count + 1)
        omega

/-- The positive-keyword fold adds 2 per list term present. -/
theorem foldl_add_two (l : List String) (t : String) (acc : ℚ) :
    l.foldl (fun sc w => if containsStr t w then sc + 2 else sc) acc
      = acc + 2 * (l.countP fun w => containsStr t w) := by
  induction l generalizing acc with
  | nil => simp
  | cons w ws ih =>
    simp only [List.foldl_cons, List.countP_cons]
    by_cases h : containsStr t w = true
    · rw [if_pos h, ih, if_pos h]
      push_cast
      ring
    · rw [if_neg h, ih, if_neg h]
      push_cast
      ring

/-- The negative-keyword fold subtracts 3 per list term present. -/
theorem foldl_sub_three (l : List String) (t : String) (acc : ℚ) :
    l.foldl (fun sc w => if containsStr t w then sc - 3 else sc) acc
      = acc - 3 * (l.countP fun w => containsStr t w) := by
  induction l generalizing acc with
  | nil => simp
  | cons w ws ih =>
    simp only [List.foldl_cons, List.countP_cons]
    by_cases h : containsStr t w = true
    · rw [if_pos h, ih, if_pos h]
      push_cast
      ring
    · rw [if_neg h, ih, if_neg h]
      push_cast
      ring

/-- The unclamped quality score splits into its five additive terms. -/
theorem rawQuality_decomposition (currentYear : ℕ) (rating : ℚ) (studentCount : ℤ)
    (title description : String) :
    rawQualityScore currentYear rating studentCount title description =
      (if 0 < rating then rating * 8 else 0) + studentCountBonus studentCount +
        (2 * (positiveWords.countP fun w => containsStr (toLowerStr title) w) -
          3 * (negativeWords.countP fun w => containsStr (toLowerStr title) w)) +
        ((if 100 < description.length then (5 : ℚ) else 0) +
          (if 200 < description.length then (3 : ℚ) else 0)) +
        yearBonus currentYear title := by
  unfold rawQualityScore
  dsimp only
  rw [foldl_add_two, foldl_sub_three]
  ring

end scraper

namespace scraper

/-- A month entry whose pattern does not match is skipped. -/
theorem parseMonths_skip (cy : ℕ) (upper : List Char) (name : String) (m : ℕ)
    (rest : List (String × ℕ)) (h : matchMonthName name.data upper = none) :
    parseMonths cy upper ((name, m) :: rest) = parseMonths cy upper rest := by
  simp only [parseMonths, h]

/-- A leading block of non-matching month entries is skipped. -/
theorem parseMonths_append_skip (cy : ℕ) (upper : List Char) :
    ∀ (pre rest : List (String × ℕ)),
      (∀ p ∈ pre, matchMonthName p.1.data upper = none) →
      parseMonths cy upper (pre ++ rest) = parseMonths cy upper rest := by
  intro pre
  induction pre with
  | nil => intro rest _; rfl
  | cons p ps ih =>
    intro rest h
    rw [List.cons_append]
    have h1 : matchMonthName p.1.data upper = none := h p (List.mem_cons_self p ps)
    rw [parseMonths_skip cy upper p.1 p.2 _ h1]
    exact ih rest fun q hq => h q (List.mem_cons_of_mem p hq)

/-- A table of entirely non-matching month entries yields nothing. -/
theorem parseMonths_all_skip (cy : ℕ) (upper : List Char) (table : List (String × ℕ))
    (h : ∀ p ∈ table, matchMonthName p.1.data upper = none) :
    parseMonths cy upper table = none := by
  have := parseMonths_append_skip cy upper table [] h
  simpa using this

/-- A matching month entry whose guards pass returns its date. -/
theorem parseMonths_hit (cy : ℕ) (upper : List Char) (name : String) (m : ℕ)
    (rest : List (String × ℕ)) (od : Option ℕ) (year : ℕ)
    (h : matchMonthName name.data upper = some (od, year))
    (hc : 0 < year ∧ cy ≤ year ∧ 0 < od.getD 1 ∧ od.getD 1 ≤ 31) :
    parseMonths cy upper ((name, m) :: rest) = some ⟨year, m, od.getD 1, 23, 59, 59⟩ := by
  simp only [parseMonths, h]
  rw [if_pos hc]

end scraper

namespace scraper

/-- A four-digit year at least the current one anywhere in the text makes the digit-run scan fire. -/
theorem runGE_of_suffix (cy : ℕ) (y : ℕ) (hge : cy ≤ y) :
    ∀ (p t : List Char), year4 t = some y → runGE cy (p ++ t) = true := by
  intro p
  induction p with
  | nil =>
    intro t hy
    match t, hy with
    | a :: ts, hy =>
      simp only [List.nil_append, runGE, hy]
      simp [hge]
  | cons c ps ih =>
    intro t hy
    simp only [List.cons_append, runGE, List.append_eq]
    rw [ih t hy]
    simp

/-- Two-digit-day matches read their year from four consecutive digits. -/
theorem try2_year (name s : List Char) (od : Option ℕ) (y : ℕ)
    (h : try2 name s = some (od, y)) : ∃ t, t <:+ s ∧ year4 t = some y := by
  match s with
  | [] => simp [try2] at h
  | [d] => simp [try2] at h
  | d1 :: d2 :: rest =>
    simp only [try2] at h
    split at h
    · rw [Option.map_eq_some'] at h
      obtain ⟨yy, hy, he⟩ := h
      have hyy : yy = y := congrArg Prod.snd he
      subst hyy
      exact ⟨rest.drop name.length,
        (List.drop_suffix _ _).trans ((List.suffix_cons d2 rest).trans (List.suffix_cons d1 _)), hy⟩
    · simp at h

/-- One-digit-day matches read their year from four consecutive digits. -/
theorem try1_year (name s : List Char) (od : Option ℕ) (y : ℕ)
    (h : try1 name s = some (od, y)) : ∃ t, t <:+ s ∧ year4 t = some y := by
  match s with
  | [] => simp [try1] at h
  | d1 :: rest =>
    simp only [try1] at h
    split at h
    · rw [Option.map_eq_some'] at h
      obtain ⟨yy, hy, he⟩ := h
      have hyy : yy = y := congrArg Prod.snd he
      subst hyy
      exact ⟨rest.drop name.length,
        (List.drop_suffix _ _).trans (List.suffix_cons d1 rest), hy⟩
    · simp at h

/-- Day-less matches read their year from four consecutive digits. -/
theorem try0_year (name s : List Char) (od : Option ℕ) (y : ℕ)
    (h : try0 name s = some (od, y)) : ∃ t, t <:+ s ∧ year4 t = some y := by
  simp only [try0] at h
  split at h
  · rw [Option.map_eq_some'] at h
    obtain ⟨yy, hy, he⟩ := h
    have hyy : yy = y := congrArg Prod.snd he
    subst hyy
    exact ⟨s.drop name.length, List.drop_suffix _ _, hy⟩
  · simp at h

/-- Any year returned by the month matcher is four consecutive digits of the scanned text. -/
theorem matchMonthName_year (name : List Char) :
    ∀ (s : List Char) (od : Option ℕ) (y : ℕ),
      matchMonthName name s = some (od, y) → ∃ t, t <:+ s ∧ year4 t = some y := by
  intro s
  induction s with
  | nil =>
    intro od y h
    exact try0_year name [] od y h
  | cons c rest ih =>
    intro od y h
    simp only [matchMonthName] at h
    cases h2 : try2 name (c :: rest) with
    | some v =>
      rw [h2] at h
      simp only [Option.some_orElse] at h
      obtain rfl : v = (od, y) := Option.some.inj h
      exact try2_year name (c :: rest) od y h2
    | none =>
      rw [h2, Option.none_orElse] at h
      cases h1 : try1 name (c :: rest) with
      | some v =>
        rw [h1] at h
        simp only [Option.some_orElse] at h
        obtain rfl : v = (od, y) := Option.some.inj h
        exact try1_year name (c :: rest) od y h1
      | none =>
        rw [h1, Option.none_orElse] at h
        cases h0 : try0 name (c :: rest) with
        | some v =>
          rw [h0] at h
          simp only [Option.some_orElse] at h
          obtain rfl : v = (od, y) := Option.some.inj h
          exact try0_year name (c :: rest) od y h0
        | none =>
          rw [h0, Option.none_orElse] at h
          obtain ⟨t, hsuf, hy⟩ := ih od y h
          exact ⟨t, hsuf.trans (List.suffix_cons c rest), hy⟩

end scraper

namespace scraper

/-- When the digit-run scan is silent, no four-digit suffix year reaches the current year. -/
theorem runGE_false_no_suffix (cy : ℕ) (s t : List Char) (y : ℕ)
    (h : runGE cy s = false) (hsuf : t <:+ s) (hy : year4 t = some y) : ¬ cy ≤ y := by
  intro hge
  obtain ⟨p, rfl⟩ := hsuf
  rw [runGE_of_suffix cy y hge p t hy] at h
  simp at h

/-- With no qualifying digit run, every month entry is rejected. -/
theorem parseMonths_none_of_noRun (cy : ℕ) (upper : List Char)
    (h : runGE cy upper = false) :
    ∀ table : List (String × ℕ), parseMonths cy upper table = none := by
  intro table
  induction table with
  | nil => rfl
  | cons p rest ih =>
    cases hm : matchMonthName p.1.data upper with
    | none =>
      rw [show p = (p.1, p.2) from rfl, parseMonths_skip cy upper p.1 p.2 rest hm]
      exact ih
    | some v =>
      obtain ⟨t, hsuf, hy⟩ := matchMonthName_year p.1.data upper v.1 v.2 (by rw [hm])
      have hnot := runGE_false_no_suffix cy upper t v.2 h hsuf hy
      rw [show p = (p.1, p.2) from rfl]
      simp only [parseMonths, hm]
      rw [if_neg (by rintro ⟨-, hc, -⟩; exact hnot hc)]
      exact ih

/-- An anchored bare-year match is a four-digit run with the same value. -/
theorem year20At_year4 (s : List Char) (y : ℕ) (h : year20At s = some y) :
    year4 s = some y := by
  unfold year20At at h
  split at h
  case h_2 => simp at h
  case h_1 x z rest =>
    split at h
    case isFalse => simp at h
    case isTrue hd =>
      obtain rfl := Option.some.inj h
      simp only [Bool.and_eq_true] at hd
      have c2 : ('2').isDigit = true := by decide
      have c0 : ('0').isDigit = true := by decide
      have h2 : digitVal '2' = 2 := by decide
      have h0 : digitVal '0' = 0 := by decide
      simp only [year4, hd.1, hd.2, c2, c0, Bool.and_self, Bool.true_and, if_true, h2, h0]

/-- Any bare year found is a four-digit run somewhere in the text. -/
theorem find20dd_year : ∀ (s : List Char) (y : ℕ),
    find20dd s = some y → ∃ t, t <:+ s ∧ year4 t = some y := by
  intro s
  induction s with
  | nil => intro y h; simp [find20dd] at h
  | cons c rest ih =>
    intro y h
    simp only [find20dd] at h
    cases h2 : year20At (c :: rest) with
    | some v =>
      rw [h2] at h
      obtain rfl := Option.some.inj h
      exact ⟨c :: rest, List.suffix_refl _, year20At_year4 _ _ h2⟩
    | none =>
      rw [h2] at h
      obtain ⟨t, hsuf, hy⟩ := ih y h
      exact ⟨t, hsuf.trans (List.suffix_cons c rest), hy⟩

end scraper

namespace scraper

/-- Upper-casing preserves four-digit runs and their values. -/
theorem year4_map_toUpper (t : List Char) (y : ℕ) (h : year4 t = some y) :
    year4 (t.map Char.toUpper) = some y := by
  unfold year4 at h
  split at h
  case h_2 => simp at h
  case h_1 a b x z rest =>
    split at h
    case isFalse => simp at h
    case isTrue hd =>
      obtain rfl := Option.some.inj h
      simp only [Bool.and_eq_true] at hd
      obtain ⟨⟨⟨ha, hb⟩, hx⟩, hz⟩ := hd
      simp only [List.map_cons]
      rw [digit_toUpper a ha, digit_toUpper b hb, digit_toUpper x hx, digit_toUpper z hz]
      simp only [year4, ha, hb, hx, hz, Bool.and_self, Bool.true_and, if_true]

/-- A coupon code with no four-digit run reaching the current year parses to the zero time. -/
theorem parseCouponExpiration_none (cy : ℕ) (code : String)
    (h : runGE cy (toUpperStr code).data = false) :
    parseCouponExpiration cy code = none := by
  unfold parseCouponExpiration
  rw [parseMonths_none_of_noRun cy _ h monthsTable]
  cases hf : find20dd code.data with
  | none => rfl
  | some y =>
    obtain ⟨t, hsuf, hy⟩ := find20dd_year code.data y hf
    have hy' : year4 (t.map Char.toUpper) = some y := year4_map_toUpper t y hy
    have hsuf' : t.map Char.toUpper <:+ (toUpperStr code).data := by
      have := hsuf.map Char.toUpper
      simpa [toUpperStr] using this
    have hnot := runGE_false_no_suffix cy _ _ y h hsuf' hy'
    simp only []
    rw [if_neg hnot]

end scraper

namespace scraper

/-- With no decodable coupon expiry the urgency/default-days rule decides. -/
theorem extractExpirationDate_fallback (currentYear : ℕ) (courseURL title : String)
    (h : couponDateOf currentYear courseURL = none) :
    extractExpirationDate currentYear courseURL title =
      (if containsStr (toLowerStr title) ("limited") ||
          containsStr (toLowerStr title) ("special") ||
          containsStr (toLowerStr title) ("exclusive") then
        Expiration.nowPlusDays 2
      else Expiration.nowPlusDays 7) := by
  unfold extractExpirationDate
  rw [h]

/-- The first course link among a coupon page's Udemy links always wins. -/
theorem followCouponLink_prefers_course (couponURL : String)
    (couponPageLinks claimPageLinks : List String) (u : String)
    (h : (couponPageLinks.filter fun hr => containsStr hr ("udemy.com")).find?
        (fun hr => containsStr hr ("/course/")) = some u) :
    followCouponLink couponURL couponPageLinks claimPageLinks = cleanUdemyURL u := by
  unfold followCouponLink
  dsimp only
  rw [h]

end scraper

/-! # Claim theorems -/

section Claims

open database similarity scraper security

set_option maxRecDepth 1000000

/-- C1 (amended): deduplicating a single-element list returns that element
unchanged; two listings with different titles, case-insensitively
different categories, ratings more than 0.5 apart and no student-count
overlap are both returned unmodified under the 0.85 threshold; and two
listings with identical titles, identical categories and identical
descriptions, distinct IDs and distinct quality scores reduce to exactly
one listing, the one with the higher quality score. -/
theorem C1_dedup_unit_and_pair :
    (∀ (se : SimilarityEngine) (c : Course), DeduplicateCourses se [c] = [c]) ∧
    (∀ a b : Course, a.Title ≠ b.Title →
      toLowerStr a.Category ≠ toLowerStr b.Category →
      ¬(mathAbs (a.Rating - b.Rating) ≤ 5/10) →
      ¬(0 < a.StudentCount ∧ 0 < b.StudentCount ∧
        ((8/10 : ℚ)) ≤ ((min a.StudentCount b.StudentCount : ℤ) : ℚ) /
          ((max a.StudentCount b.StudentCount : ℤ) : ℚ)) →
      DeduplicateCourses (New (85/100)) [a, b] = [a, b]) ∧
    (∀ a b : Course, a.Title = b.Title → a.Category = b.Category →
      a.Description = b.Description → a.ID ≠ b.ID →
      (b.QualityScore < a.QualityScore → DeduplicateCourses (New (85/100)) [a, b] = [a]) ∧
      (a.QualityScore < b.QualityScore → DeduplicateCourses (New (85/100)) [a, b] = [b])) := by
  refine ⟨fun se c => dedup_singleton se c, ?_, ?_⟩
  · intro a b _ht hcat hrat hstud
    have hsim : IsSimilar (New (85/100)) a b = false := by
      rw [IsSimilar, decide_eq_false_iff_not, new_threshold]
      intro hle
      have := sim_le_of_far (New (85/100)) a b hcat hrat hstud
      linarith
    rw [dedup_pair, hsim]
    simp
  · intro a b hT hC hD hID
    have hsim : IsSimilar (New (85/100)) a b = true := by
      rw [IsSimilar, decide_eq_true_eq, new_threshold,
        sim_eq_one_of_equal_fields (New (85/100)) a b hT hD hC]
      norm_num
    constructor
    · intro hq
      have hbest : FindBestCourse a b = a := by
        unfold FindBestCourse
        rw [if_pos (ne_of_gt hq), if_pos hq]
      rw [dedup_pair, hsim, if_pos rfl, hbest, if_neg hID]
    · intro hq
      have hbest : FindBestCourse a b = b := by
        unfold FindBestCourse
        rw [if_pos (ne_of_lt hq), if_neg (not_lt_of_lt hq)]
      rw [dedup_pair, hsim, if_pos rfl, hbest, if_pos rfl]

/-- Witness for C1 at concrete listings: a singleton, a far-apart pair
and an identical-field pair with distinct IDs and quality scores. -/
theorem C1_dedup_witness :
    DeduplicateCourses (New (85/100))
        [⟨1, "u", "A Python Course", "d", "Programming", 4, "Free", "100%", 0, 0, 50, 10⟩] =
      [⟨1, "u", "A Python Course", "d", "Programming", 4, "Free", "100%", 0, 0, 50, 10⟩] ∧
    DeduplicateCourses (New (85/100))
        [⟨1, "u1", "Python Basics Fun", "da", "Programming", 4, "", "", 0, 0, 50, 100⟩,
         ⟨2, "u2", "Guitar Lessons Here", "db", "Music", 2, "", "", 0, 0, 60, 0⟩] =
      [⟨1, "u1", "Python Basics Fun", "da", "Programming", 4, "", "", 0, 0, 50, 100⟩,
       ⟨2, "u2", "Guitar Lessons Here", "db", "Music", 2, "", "", 0, 0, 60, 0⟩] ∧
    DeduplicateCourses (New (85/100))
        [⟨1, "u1", "T", "d", "C", 1, "", "", 0, 0, 90, 0⟩,
         ⟨2, "u2", "T", "d", "C", 5, "", "", 0, 0, 10, 0⟩] =
      [⟨1, "u1", "T", "d", "C", 1, "", "", 0, 0, 90, 0⟩] := by
  refine ⟨C1_dedup_unit_and_pair.1 (New (85/100)) _, ?_, ?_⟩
  · exact C1_dedup_unit_and_pair.2.1
      ⟨1, "u1", "Python Basics Fun", "da", "Programming", 4, "", "", 0, 0, 50, 100⟩
      ⟨2, "u2", "Guitar Lessons Here", "db", "Music", 2, "", "", 0, 0, 60, 0⟩
      (by decide) (by decide) (by decide!) (by decide!)
  · exact (C1_dedup_unit_and_pair.2.2
      ⟨1, "u1", "T", "d", "C", 1, "", "", 0, 0, 90, 0⟩
      ⟨2, "u2", "T", "d", "C", 5, "", "", 0, 0, 10, 0⟩
      rfl rfl rfl (by decide)).1 (by decide!)

/-- Counterexample to C1 as stated: two listings with identical titles
and identical categories (but disjoint descriptions, ratings far apart
and no student counts) fall below the 0.85 threshold and are both
returned, not reduced to one. -/
theorem C1_dedup_counterexample :
    DeduplicateCourses (New (85/100))
        [⟨1, "u1", "T", "x", "C", 1, "", "", 0, 0, 90, 0⟩,
         ⟨2, "u2", "T", "y", "C", 5, "", "", 0, 0, 10, 0⟩] =
      [⟨1, "u1", "T", "x", "C", 1, "", "", 0, 0, 90, 0⟩,
       ⟨2, "u2", "T", "y", "C", 5, "", "", 0, 0, 10, 0⟩] ∧
    (2 : ℕ) ≠ 1 := by
  exact ⟨by decide!, by decide⟩

/-- C2: similarity of any fully-populated listing with itself clamps to
exactly 1. -/
theorem C2_similarity_reflexive (se : SimilarityEngine) (a : Course)
    (_hT : a.Title ≠ "") (_hD : a.Description ≠ "") (_hC : a.Category ≠ "")
    (_hr0 : 0 ≤ a.Rating) (_hr5 : a.Rating ≤ 5) (_hs : 0 < a.StudentCount) :
    CalculateSimilarity se a a = 1 :=
  calculateSimilarity_self se a

/-- Witness for C2 at a concrete fully-populated listing. -/
theorem C2_similarity_reflexive_witness :
    CalculateSimilarity (New (85/100))
      ⟨1, "u", "Python", "desc", "Programming", 4, "Free", "100%", 0, 0, 50, 10⟩
      ⟨1, "u", "Python", "desc", "Programming", 4, "Free", "100%", 0, 0, 50, 10⟩ = 1 :=
  C2_similarity_reflexive (New (85/100)) _ (by decide) (by decide) (by decide)
    (by decide!) (by decide!) (by decide)

/-- C3 (amended): the per-page anchor loop emits at most
`LimitCourses 1000` listings, and that cap is `MaxCourseCount = 100`,
not 1000. -/
theorem C3_per_page_cap {α : Type} (resolve : α → Option Course) (anchors : List α) :
    (extractCourses resolve anchors).length ≤ LimitCourses 1000 ∧
    LimitCourses 1000 = MaxCourseCount ∧ MaxCourseCount = 100 := by
  refine ⟨?_, by decide, rfl⟩
  have h := extractCoursesGo_length (LimitCourses 1000) resolve anchors 0
  simpa [extractCourses] using h

/-- Counterexample to C3 as stated: 1000 resolvable anchors yield
exactly 100 listings, because the cap passed as 1000 is clamped to 100. -/
theorem C3_per_page_cap_counterexample :
    (extractCourses (fun _ : Unit => some (⟨0, "", "", "", "", 0, "", "", 0, 0, 0, 0⟩ : Course))
        (List.replicate 1000 ())).length = 100 ∧
    LimitCourses 1000 = 100 ∧ (100 : ℕ) ≠ 1000 := by
  exact ⟨by decide!, by decide, by decide⟩

/-- C4 (amended): the quality score is the clamp of five additive terms,
and its keyword term adds 2 for each positive-list term occurring in the
lower-cased title and subtracts 3 for each negative-list term occurring,
counted once per term regardless of how often it occurs. -/
theorem C4_quality_keyword_term (currentYear : ℕ) (rating : ℚ) (studentCount : ℤ)
    (title description : String) :
    calculateQualityScore currentYear rating studentCount title description =
      clampScore ((if 0 < rating then rating * 8 else 0) + studentCountBonus studentCount +
        (2 * (positiveWords.countP fun w => containsStr (toLowerStr title) w) -
          3 * (negativeWords.countP fun w => containsStr (toLowerStr title) w)) +
        ((if 100 < description.length then (5 : ℚ) else 0) +
          (if 200 < description.length then (3 : ℚ) else 0)) +
        yearBonus currentYear title) := by
  unfold calculateQualityScore
  rw [rawQuality_decomposition]

/-- Counterexample to C4 as stated: the title "course course" holds two
occurrences of the positive term "course", so a per-occurrence keyword
term would be 4, but the score only adds 2. -/
theorem C4_quality_keyword_counterexample :
    calculateQualityScore 2026 0 0 ("course course") ("") = 2 ∧
    2 * (((positiveWords.map fun w =>
          countOccurrences (toLowerStr ("course course")) w).sum : ℕ) : ℚ) -
      3 * (((negativeWords.map fun w =>
          countOccurrences (toLowerStr ("course course")) w).sum : ℕ) : ℚ) = 4 ∧
    (2 : ℚ) ≠ 4 := by
  exact ⟨by decide!, by decide!, by decide!⟩

/-- C5 (amended): coupon code 22JULY2025 parses to 2025-07-22T23:59:59Z
and SALE2025 to 2025-12-31T23:59:59Z whenever the current year is at
most 2025; a coupon code whose uppercasing contains no four-consecutive-
digit run of value at least the current year parses to the zero time;
and with no decodable coupon expiry the extraction falls back to now
plus 2 days when the title carries an urgency token and now plus 7 days
otherwise. -/
theorem C5_coupon_expiration :
    (∀ currentYear : ℕ, currentYear ≤ 2025 →
      parseCouponExpiration currentYear ("22JULY2025") = some ⟨2025, 7, 22, 23, 59, 59⟩) ∧
    (∀ currentYear : ℕ, currentYear ≤ 2025 →
      parseCouponExpiration currentYear ("SALE2025") = some ⟨2025, 12, 31, 23, 59, 59⟩) ∧
    (∀ (currentYear : ℕ) (code : String), runGE currentYear (toUpperStr code).data = false →
      parseCouponExpiration currentYear code = none) ∧
    (∀ (currentYear : ℕ) (courseURL title : String),
      couponDateOf currentYear courseURL = none →
      extractExpirationDate currentYear courseURL title =
        (if containsStr (toLowerStr title) ("limited") ||
            containsStr (toLowerStr title) ("special") ||
            containsStr (toLowerStr title) ("exclusive") then Expiration.nowPlusDays 2
         else Expiration.nowPlusDays 7)) := by
  refine ⟨?_, ?_, parseCouponExpiration_none, extractExpirationDate_fallback⟩
  · intro cy hcy
    unfold parseCouponExpiration
    have hsplit : monthsTable =
        ([("JAN", 1), ("JANUARY", 1), ("FEB", 2), ("FEBRUARY", 2),
          ("MAR", 3), ("MARCH", 3), ("APR", 4), ("APRIL", 4), ("MAY", 5),
          ("JUN", 6), ("JUNE", 6), ("JUL", 7)] : List (String × ℕ)) ++
          (("JULY", 7) :: [("AUG", 8), ("AUGUST", 8), ("SEP", 9), ("SEPTEMBER", 9),
            ("OCT", 10), ("OCTOBER", 10), ("NOV", 11), ("NOVEMBER", 11),
            ("DEC", 12), ("DECEMBER", 12)]) := rfl
    have hpre : parseMonths cy ((toUpperStr ("22JULY2025")).data) monthsTable =
        some ⟨2025, 7, 22, 23, 59, 59⟩ := by
      rw [hsplit, parseMonths_append_skip cy _ _ _ (by decide)]
      exact parseMonths_hit cy _ ("JULY") 7 _ (some 22) 2025 (by decide)
        ⟨by norm_num, hcy, by norm_num, by norm_num⟩
    rw [hpre]
  · intro cy hcy
    unfold parseCouponExpiration
    rw [parseMonths_all_skip cy _ monthsTable (by decide)]
    rw [show find20dd (("SALE2025") : String).data = some 2025 from by decide]
    dsimp only
    rw [if_pos hcy]

/-- Witness for C5: both dated codes at current year 2025, a code with
no digits at all, and the urgency fallback on a URL with no coupon
parameter. -/
theorem C5_coupon_expiration_witness :
    parseCouponExpiration 2025 ("22JULY2025") = some ⟨2025, 7, 22, 23, 59, 59⟩ ∧
    parseCouponExpiration 2025 ("SALE2025") = some ⟨2025, 12, 31, 23, 59, 59⟩ ∧
    parseCouponExpiration 2025 ("FREEBIE") = none ∧
    extractExpirationDate 2025 ("https://www.udemy.com/course/x/") ("Limited time offer") =
      Expiration.nowPlusDays 2 := by
  refine ⟨C5_coupon_expiration.1 2025 le_rfl, C5_coupon_expiration.2.1 2025 le_rfl,
    C5_coupon_expiration.2.2.1 2025 ("FREEBIE") (by decide), ?_⟩
  rw [C5_coupon_expiration.2.2.2 2025 ("https://www.udemy.com/course/x/")
    ("Limited time offer") (by decide)]
  decide

/-- Counterexample to C5 as stated: JULY9999 contains no four-digit
2000s year, yet it parses to a non-zero expiration. -/
theorem C5_coupon_expiration_counterexample :
    find20dd (("JULY9999") : String).data = none ∧
    parseCouponExpiration 2025 ("JULY9999") = some ⟨9999, 7, 1, 23, 59, 59⟩ := by
  exact ⟨by decide, by decide⟩

/-- C6: every listing in the deduplicated output originates from the
input, and the output holds exactly one listing per greedy single-link
group, the groups partitioning the input. -/
theorem C6_dedup_origination (se : SimilarityEngine) (courses : List Course) :
    (∀ c ∈ DeduplicateCourses se courses, c ∈ courses) ∧
    List.Forall₂ (fun out grp => out ∈ grp)
      (DeduplicateCourses se courses) (dedupGroups se courses) ∧
    ((dedupGroups se courses).flatten).Perm courses :=
  ⟨dedupGo_subset se courses.length courses le_rfl,
   dedupGo_forall2 se courses.length courses le_rfl,
   groupsGo_flatten_perm se courses.length courses le_rfl⟩

/-- Witness for C6 on a concrete two-element batch. -/
theorem C6_dedup_origination_witness :
    (⟨1, "u1", "T", "d", "C", 1, "", "", 0, 0, 90, 0⟩ : Course) ∈
      ([⟨1, "u1", "T", "d", "C", 1, "", "", 0, 0, 90, 0⟩,
        ⟨2, "u2", "T", "d", "C", 5, "", "", 0, 0, 10, 0⟩] : List Course) ∧
    List.Forall₂ (fun out grp => out ∈ grp)
      (DeduplicateCourses (New (85/100))
        [⟨1, "u1", "T", "d", "C", 1, "", "", 0, 0, 90, 0⟩,
         ⟨2, "u2", "T", "d", "C", 5, "", "", 0, 0, 10, 0⟩])
      (dedupGroups (New (85/100))
        [⟨1, "u1", "T", "d", "C", 1, "", "", 0, 0, 90, 0⟩,
         ⟨2, "u2", "T", "d", "C", 5, "", "", 0, 0, 10, 0⟩]) := by
  refine ⟨?_, (C6_dedup_origination (New (85/100)) _).2.1⟩
  exact (C6_dedup_origination (New (85/100))
      [⟨1, "u1", "T", "d", "C", 1, "", "", 0, 0, 90, 0⟩,
       ⟨2, "u2", "T", "d", "C", 5, "", "", 0, 0, 10, 0⟩]).1
    ⟨1, "u1", "T", "d", "C", 1, "", "", 0, 0, 90, 0⟩ (by decide!)

/-- C7 (amended): for every non-empty text, similarity with itself is 1
and similarity with the empty text is 0. -/
theorem C7_textsim_base_cases (x : String) (hx : x ≠ "") :
    calculateTextSimilarity x x = 1 ∧ calculateTextSimilarity x ("") = 0 := by
  refine ⟨textSim_self x, ?_⟩
  unfold calculateTextSimilarity
  rw [if_neg hx, if_pos (Or.inr rfl)]

/-- Witness for C7 at a concrete non-empty text. -/
theorem C7_textsim_base_cases_witness :
    calculateTextSimilarity ("abc") ("abc") = 1 ∧ calculateTextSimilarity ("abc") ("") = 0 :=
  C7_textsim_base_cases ("abc") (by decide)

/-- Counterexample to C7 as stated: the empty text compared with itself
takes the exact-match branch and yields 1, not 0. -/
theorem C7_textsim_counterexample :
    calculateTextSimilarity ("") ("") = 1 ∧ (1 : ℚ) ≠ 0 :=
  ⟨textSim_self (""), by norm_num⟩

/-- C8: a coupon page holding only a user-profile Udemy link and a claim
link resolves through the claim page rather than returning the user
link, and in general the first course link among a coupon page's Udemy
links is preferred over any user link. -/
theorem C8_coupon_link_preference :
    (followCouponLink ("https://coupons.example/coupon/abc")
        [("https://www.udemy.com/user/123"), ("/claim/abc")]
        [("https://www.udemy.com/course/python/?couponCode=FREE")] =
      Except.ok ("https://www.udemy.com/course/python/?couponCode=FREE") ∧
     followCouponLink ("https://coupons.example/coupon/abc")
        [("https://www.udemy.com/user/123"), ("/claim/abc")]
        [("https://www.udemy.com/course/python/?couponCode=FREE")] ≠
      Except.ok ("https://www.udemy.com/user/123")) ∧
    (∀ (couponURL : String) (couponPageLinks claimPageLinks : List String) (u : String),
      (couponPageLinks.filter fun hr => containsStr hr ("udemy.com")).find?
          (fun hr => containsStr hr ("/course/")) = some u →
      followCouponLink couponURL couponPageLinks claimPageLinks = cleanUdemyURL u) := by
  have h1 : followCouponLink ("https://coupons.example/coupon/abc")
      [("https://www.udemy.com/user/123"), ("/claim/abc")]
      [("https://www.udemy.com/course/python/?couponCode=FREE")] =
      Except.ok ("https://www.udemy.com/course/python/?couponCode=FREE") := by rfl
  refine ⟨⟨h1, ?_⟩, followCouponLink_prefers_course⟩
  rw [h1]
  intro h
  exact absurd (Except.ok.inj h) (by decide)

/-- Witness for C8: a page carrying a user link before a course link
still resolves to the course link. -/
theorem C8_coupon_link_preference_witness :
    followCouponLink ("https://c.example/coupon/a")
        [("https://www.udemy.com/user/1"), ("https://www.udemy.com/course/go/")] [] =
      cleanUdemyURL ("https://www.udemy.com/course/go/") :=
  C8_coupon_link_preference.2 ("https://c.example/coupon/a")
    [("https://www.udemy.com/user/1"), ("https://www.udemy.com/course/go/")] []
    ("https://www.udemy.com/course/go/") (by decide)

/-- C9: the quality score always lands in the interval from 0 to 100. -/
theorem C9_quality_score_bounds (currentYear : ℕ) (rating : ℚ) (studentCount : ℤ)
    (title description : String)
    (_h1 : 0 ≤ rating) (_h2 : rating ≤ 5) (_h3 : 0 ≤ studentCount) :
    0 ≤ calculateQualityScore currentYear rating studentCount title description ∧
    calculateQualityScore currentYear rating studentCount title description ≤ 100 := by
  unfold calculateQualityScore clampScore
  dsimp only
  split_ifs <;> constructor <;> linarith

/-- Witness for C9 at concrete inputs. -/
theorem C9_quality_score_bounds_witness :
    (0 ≤ (9/2 : ℚ) ∧ (9/2 : ℚ) ≤ 5 ∧ (0 : ℤ) ≤ 1200) ∧
    0 ≤ calculateQualityScore 2025 (9/2) 1200 ("Complete Python Bootcamp") ("desc") ∧
    calculateQualityScore 2025 (9/2) 1200 ("Complete Python Bootcamp") ("desc") ≤ 100 := by
  refine ⟨⟨by norm_num, by norm_num, by decide⟩, ?_⟩
  exact C9_quality_score_bounds 2025 (9/2) 1200 ("Complete Python Bootcamp") ("desc")
    (by norm_num) (by norm_num) (by decide)

/-- C10: course similarity and the duplicate test are symmetric in their
two arguments. -/
theorem C10_similarity_symmetric (se : SimilarityEngine) (a b : Course) :
    CalculateSimilarity se a b = CalculateSimilarity se b a ∧
    IsSimilar se a b = IsSimilar se b a :=
  ⟨calculateSimilarity_comm se a b, isSimilar_comm se a b⟩

end Claims
